import Mathlib

/-!
Shallow embedding of the labfolio factor-model analysis pipeline:
the return-series providers (`mdp.py`), the series aligner, the
factor-model validator and the analysis endpoint (`api.py`).

Dates are modelled as natural numbers, return values as rationals,
and a missing value (pandas NaN) as `none`.
-/

/-- A date × identifier return panel (a pandas DataFrame with a date
index): `cols` are the identifier column labels, `rows` pairs each
date with the list of cell values, one `Option ℚ` per column
(`none` is a missing value). -/
structure Panel where
  cols : List String
  rows : List (Nat × List (Option ℚ))
deriving DecidableEq, Repr

/-- Modelled from the spec: `PortfolioHolding` is declared in
`common/models.py`, which is only partially present in the sources;
§3 describes a holding as a ticker plus an integer quantity. -/
structure PortfolioHolding where
  yf_ticker : String
  quantity : Int
deriving DecidableEq, Repr

/-- One row of the `factor.returns` relational table:
(date, factor_id, return_value). -/
structure DbRow where
  date : Nat
  factor_id : String
  return_value : ℚ
deriving DecidableEq, Repr

/-- The fields of the fitted-model result object that
`analyze_factor_model` reads off the external estimator
(`res.rsquared`, `res.j_statistic.stat`, `res.params`, `res.cov`,
`res.risk_premia`).  The estimator itself is a third-party library,
so the result is kept abstract: tables are association lists keyed
by identifier. -/
structure FitResult where
  rsquared : ℚ
  jStat : ℚ
  params : List (String × List (String × ℚ))
  cov : List (String × List (String × ℚ))
  risk_premia : List (String × ℚ)
deriving DecidableEq, Repr

/-- The nested mapping built by `analyze_factor_model` lines 590-607:
the `"analysis"` object of the response, with the `"statistics"`
sub-object flattened into its five keys. -/
structure AnalysisResponse where
  status : String
  no_factors : Nat
  no_assets : Nat
  no_observations : Nat
  r_squared : ℚ
  j_statistic : ℚ
  covariance_matrix : List (String × List (String × ℚ))
  params : List (String × List (String × ℚ))
  risk_premia : List (String × ℚ)
  timestamp : Nat
deriving DecidableEq, Repr

/-- The distinct HTTPException raise sites of the
`analyze_factor_model` endpoint, one constructor per site.
`validation` carries the detail string of the validator. -/
inductive ApiError where
  | validation (detail : String)
  | fetchFactor (msg : String)
  | fetchPortfolio (msg : String)
  | fitError (msg : String)
  | packageError (msg : String)
deriving DecidableEq, Repr

/-- The two data-fetch effects of `analyze_factor_model`: the query
against the relational store (`DatabaseMDP`) and the call to the
market-data feed (`YahooFinanceMDP`). -/
inductive FetchEvent where
  | db
  | yahoo
deriving DecidableEq, Repr

/-- Order-preserving deduplication keeping the first occurrence, as
`pandas.Index.unique` does; used to model `Index.intersection`. -/
def uniqueFirst {α : Type} [DecidableEq α] : List α → List α
  | [] => []
  | d :: ds => d :: (uniqueFirst ds).filter (fun x => decide (x ≠ d))

/-- Insertion step of the sort used to model the sorted index and
columns produced by `DataFrame.pivot`. -/
def insertSorted {α : Type} (le : α → α → Bool) (x : α) : List α → List α
  | [] => [x]
  | y :: ys => if le x y then x :: y :: ys else y :: insertSorted le x ys

/-- Insertion sort (structural, kernel-computable). -/
def sortBy {α : Type} (le : α → α → Bool) (l : List α) : List α :=
  l.foldr (insertSorted le) []

/-- Lexicographic comparison of characters by code point. -/
def charLtB (a b : Char) : Bool := decide (a.toNat < b.toNat)

/-- Lexicographic comparison of character lists. -/
def listLtB : List Char → List Char → Bool
  | _, [] => false
  | [], _ :: _ => true
  | a :: as, b :: bs => charLtB a b || (decide (a = b) && listLtB as bs)

/-- Lexicographic comparison of identifiers (the column ordering
used by `DataFrame.pivot`). -/
def strLtB (a b : String) : Bool := listLtB a.data b.data

/-- Row lookup of `df.loc[common_dates]`: for each requested date, in
order, all rows of the panel carrying that date. -/
def locRows (rows : List (Nat × List (Option ℚ))) : List Nat → List (Nat × List (Option ℚ))
  | [] => []
  | d :: ds => rows.filter (fun r => decide (r.1 = d)) ++ locRows rows ds

/-- `factor_copy.index.intersection(asset_copy.index)` with the pandas
default `sort=False`: the deduplicated dates of the first index, in
first-index order, restricted to dates also present in the second. -/
def commonDates (a b : List Nat) : List Nat :=
  (uniqueFirst a).filter (fun d => decide (d ∈ b))

/-- `align_data` (api.py lines 126-143): intersect the two date
indices and re-index both panels to the common dates. -/
def align_data (factor_df asset_df : Panel) : Panel × Panel :=
  let common := commonDates (factor_df.rows.map Prod.fst) (asset_df.rows.map Prod.fst)
  (⟨factor_df.cols, locRows factor_df.rows common⟩,
   ⟨asset_df.cols, locRows asset_df.rows common⟩)

/-- Fraction of missing values in column `j` of the panel:
`returns.isnull().mean()` for that column.  On an empty frame the
pandas mean is NaN; the division below returns 0 there, and the NaN
comparison semantics is restored in `colKept`. -/
def nullFrac (p : Panel) (j : Nat) : ℚ :=
  (p.rows.countP (fun r => (r.2.getD j none).isNone) : ℚ) / (p.rows.length : ℚ)

/-- Whether column `j` survives `null_pct[null_pct < null_threshold]`:
on a zero-row frame the mean is NaN and `NaN < t` is false, so no
column is kept. -/
def colKept (p : Panel) (t : ℚ) (j : Nat) : Bool :=
  decide (0 < p.rows.length) && decide (nullFrac p j < t)

/-- Indices of the columns kept by the null-threshold filter. -/
def keptIndices (p : Panel) (t : ℚ) : List Nat :=
  (List.range p.cols.length).filter (colKept p t)

/-- `returns = returns[cols_to_keep]`: restrict the panel to the
kept columns. -/
def dropSparseCols (p : Panel) (t : ℚ) : Panel :=
  ⟨(keptIndices p t).map (fun j => p.cols.getD j ""),
   p.rows.map (fun r => (r.1, (keptIndices p t).map (fun j => r.2.getD j none)))⟩

/-- `returns.dropna()`: drop every row still containing a missing
value. -/
def dropna (p : Panel) : Panel :=
  ⟨p.cols, p.rows.filter (fun r => r.2.all (fun v => v.isSome))⟩

/-- The shared two-stage cleaning of both `get_returns`
implementations (mdp.py lines 45-51 and 110-116): drop sparse
columns, then drop incomplete rows. -/
def cleanPanel (p : Panel) (t : ℚ) : Panel :=
  dropna (dropSparseCols p t)

/-- One cell of `prices.pct_change()`: `cur/prev - 1` when both
prices are present, missing otherwise. -/
def pctCell (prev cur : Option ℚ) : Option ℚ :=
  match prev, cur with
  | some a, some b => some (b / a - 1)
  | _, _ => none

/-- Row recursion for `pct_change`: each row is computed against the
previous row of prices; the first row has no previous row and is all
missing. -/
def pctRows (prev : Option (List (Option ℚ))) :
    List (Nat × List (Option ℚ)) → List (Nat × List (Option ℚ))
  | [] => []
  | (d, r) :: rest =>
      (d, match prev with
          | none => r.map (fun _ => none)
          | some pr => List.zipWith pctCell pr r) :: pctRows (some r) rest

/-- `returns = prices.pct_change()` (mdp.py line 43). -/
def pct_change (prices : Panel) : Panel :=
  ⟨prices.cols, pctRows none prices.rows⟩

/-- `YahooFinanceMDP.get_returns` (mdp.py lines 20-59), starting from
the downloaded close-price panel: compute simple returns, then apply
the two-stage cleaning. -/
def YahooFinanceMDP.get_returns (prices : Panel) (null_threshold : ℚ) : Panel :=
  cleanPanel (pct_change prices) null_threshold

/-- The row selection of the two SQL queries in
`DatabaseMDP.get_returns` (mdp.py lines 72-92): a date-range filter,
plus a `factor_id IN (...)` filter only when the ticker list is
non-empty (Python `if tickers:`). -/
def selectRows (store : List DbRow) (tickers : List String) (d1 d2 : Nat) : List DbRow :=
  if tickers.isEmpty then
    store.filter (fun r => decide (d1 ≤ r.date) && decide (r.date ≤ d2))
  else
    store.filter (fun r =>
      decide (r.factor_id ∈ tickers) && decide (d1 ≤ r.date) && decide (r.date ≤ d2))

/-- `DataFrame.pivot(index=date, columns=factor_id, values=return_value)`
(mdp.py lines 104-108): sorted unique dates × sorted unique
identifiers, each cell holding the first matching row value, missing
when no row matches.  (pandas pivot additionally requires the
(date, factor_id) pairs to be unique.) -/
def pivotRows (rows : List DbRow) : Panel :=
  let dates := sortBy (fun a b => Nat.ble a b) (uniqueFirst (rows.map (fun r => r.date)))
  let ids := sortBy (fun a b => !(strLtB b a)) (uniqueFirst (rows.map (fun r => r.factor_id)))
  ⟨ids, dates.map (fun d =>
    (d, ids.map (fun c =>
      (rows.find? (fun r => decide (r.date = d) && decide (r.factor_id = c))).map
        (fun r => r.return_value))))⟩

/-- `DatabaseMDP.get_returns` (mdp.py lines 67-124) over an abstract
store: select by ticker set and date range, pivot, then apply the
two-stage cleaning. -/
def DatabaseMDP.get_returns (store : List DbRow) (tickers : List String)
    (d1 d2 : Nat) (null_threshold : ℚ) : Panel :=
  cleanPanel (pivotRows (selectRows store tickers d1 d2)) null_threshold

/-- `__validate_factor_model` (api.py lines 145-155): the fail-fast
precondition check, one specific HTTPException detail per condition,
returning `True` when all pass.  (`len(set(factors))` is
`factors.dedup.length`.) -/
def validate_factor_model {α : Type} (factors : List String) (holdings : List α) :
    Except String Bool :=
  if factors.length = 0 then .error "No factors selected"
  else if holdings.length = 0 then .error "No holdings selected"
  else if holdings.length < factors.length then
    .error "There must be at least as many holdings as factors"
  else if factors.length ≠ factors.dedup.length then .error "All factors must be unique"
  else .ok true

/-- The response construction of `analyze_factor_model` lines
590-607: statistics computed from the fit result and the aligned
factor panel, the parameter, covariance and risk-premia tables
copied from the fit result, plus a timestamp. -/
def build_response (res : FitResult) (factor_df : Panel) (now : Nat) : AnalysisResponse :=
  { status := "success"
    no_factors := factor_df.cols.length
    no_assets := res.params.length
    no_observations := factor_df.rows.length
    r_squared := res.rsquared
    j_statistic := res.jStat
    covariance_matrix := res.cov
    params := res.params
    risk_premia := res.risk_premia
    timestamp := now }

/-- `analyze_factor_model` (api.py lines 504-613) with the two data
providers and the external estimator as explicit oracles.  The
second component of the result is the trace of data-fetch effects in
the order they were performed.  Mirrors the code: validate first;
fetch factor returns from the relational store; fetch holding
returns from the market-data feed; align; fit
(`LinearFactorModel(portfolios=portfolio_df, factors=factor_df)`);
package.  Each failure aborts with the raise site of that stage. -/
def analyze_factor_model (factors : List String) (holdings : List PortfolioHolding)
    (dbFetch : List String → Except String Panel)
    (yfFetch : List String → Except String Panel)
    (fitFn : Panel → Panel → Except String FitResult)
    (now : Nat) : Except ApiError AnalysisResponse × List FetchEvent :=
  let holdings_tickers := holdings.map (fun h => h.yf_ticker)
  match validate_factor_model factors holdings_tickers with
  | .error d => (.error (.validation d), [])
  | .ok _ =>
    match dbFetch factors with
    | .error m => (.error (.fetchFactor m), [.db])
    | .ok factor_returns =>
      match yfFetch holdings_tickers with
      | .error m => (.error (.fetchPortfolio m), [.db, .yahoo])
      | .ok portfolio_returns =>
        let aligned := align_data factor_returns portfolio_returns
        match fitFn aligned.2 aligned.1 with
        | .error m => (.error (.fitError m), [.db, .yahoo])
        | .ok res => (.ok (build_response res aligned.1 now), [.db, .yahoo])

/-!
General lemmas about the embedded operations.
-/

/-- A list has the same length as its dedup exactly when it has no
duplicates (`len(factors) == len(set(factors))`). -/
theorem dedup_length_eq_iff {α : Type} [DecidableEq α] (l : List α) :
    l.dedup.length = l.length ↔ l.Nodup := by
  constructor
  · intro h
    have he : l.dedup = l := (List.dedup_sublist l).eq_of_length h
    simpa [he] using l.nodup_dedup
  · intro h
    rw [List.dedup_eq_self.mpr h]

/-- Every row of the cleaned panel is fully populated: the second
cleaning stage filters on exactly that predicate. -/
theorem cleanPanel_dense (p : Panel) (t : ℚ) :
    ((cleanPanel p t).rows.all (fun r => r.2.all (fun v => v.isSome))) = true := by
  rw [List.all_eq_true]
  intro r hr
  exact (List.mem_filter.mp hr).2

/-- Test panel for the null-threshold boundary: 20 dates; column X
has 3 missing values (15%), column Y has 1 (5%), column Z has 2
(exactly 10%). -/
def cex2Panel : Panel :=
  ⟨["X", "Y", "Z"],
   (List.range 20).map (fun i =>
     (i, [if i < 3 then none else some (1 : ℚ),
          if i < 1 then none else some 1,
          if i < 2 then none else some 1]))⟩

/-- C1: the validator fails fast with a specific, distinguishable
error per violated condition — "No factors selected" on an empty
factor list, then "No holdings selected" on an empty holdings list,
then "There must be at least as many holdings as factors" when there
are fewer holdings than factors, then "All factors must be unique"
on duplicate factors — and returns `True` when no condition is
violated; the four detail strings are pairwise distinct. -/
theorem validator_error_cases (factors : List String) (holdings : List PortfolioHolding) :
    (factors = [] → validate_factor_model factors holdings = .error "No factors selected") ∧
    (factors ≠ [] → holdings = [] →
      validate_factor_model factors holdings = .error "No holdings selected") ∧
    (factors ≠ [] → holdings ≠ [] → holdings.length < factors.length →
      validate_factor_model factors holdings =
        .error "There must be at least as many holdings as factors") ∧
    (factors ≠ [] → holdings ≠ [] → factors.length ≤ holdings.length → ¬ factors.Nodup →
      validate_factor_model factors holdings = .error "All factors must be unique") ∧
    (factors ≠ [] → holdings ≠ [] → factors.length ≤ holdings.length → factors.Nodup →
      validate_factor_model factors holdings = .ok true) ∧
    (("No factors selected" : String) ≠ "No holdings selected" ∧
     ("No factors selected" : String) ≠ "There must be at least as many holdings as factors" ∧
     ("No factors selected" : String) ≠ "All factors must be unique" ∧
     ("No holdings selected" : String) ≠ "There must be at least as many holdings as factors" ∧
     ("No holdings selected" : String) ≠ "All factors must be unique" ∧
     ("There must be at least as many holdings as factors" : String) ≠
       "All factors must be unique") := by
  refine ⟨?_, ?_, ?_, ?_, ?_, by decide⟩
  · intro h
    subst h
    rfl
  · intro hf hh
    have h1 : factors.length ≠ 0 := by simpa [List.length_eq_zero] using hf
    subst hh
    simp [validate_factor_model, h1]
  · intro hf hh hlt
    have h1 : factors.length ≠ 0 := by simpa [List.length_eq_zero] using hf
    have h2 : holdings.length ≠ 0 := by simpa [List.length_eq_zero] using hh
    simp [validate_factor_model, h1, h2, hlt]
  · intro hf hh hle hnd
    have h1 : factors.length ≠ 0 := by simpa [List.length_eq_zero] using hf
    have h2 : holdings.length ≠ 0 := by simpa [List.length_eq_zero] using hh
    have h3 : ¬ holdings.length < factors.length := Nat.not_lt.mpr hle
    have h4 : factors.length ≠ factors.dedup.length := by
      intro hEq
      exact hnd ((dedup_length_eq_iff factors).mp hEq.symm)
    simp only [validate_factor_model]
    rw [if_neg h1, if_neg h2, if_neg h3, if_pos h4]
  · intro hf hh hle hnd
    have h1 : factors.length ≠ 0 := by simpa [List.length_eq_zero] using hf
    have h2 : holdings.length ≠ 0 := by simpa [List.length_eq_zero] using hh
    have h3 : ¬ holdings.length < factors.length := Nat.not_lt.mpr hle
    have h4 : ¬ (factors.length ≠ factors.dedup.length) :=
      not_not_intro (((dedup_length_eq_iff factors).mpr hnd).symm)
    simp only [validate_factor_model]
    rw [if_neg h1, if_neg h2, if_neg h3, if_neg h4]

/-- C1 witness: a concrete instance of each of a failing and a
passing validation. -/
theorem validator_error_cases_witness :
    validate_factor_model ["mkt"] ([] : List PortfolioHolding) = .error "No holdings selected" ∧
    validate_factor_model ["mkt", "smb"]
      ([⟨"AAPL", 1⟩, ⟨"MSFT", 2⟩] : List PortfolioHolding) = .ok true :=
  ⟨(validator_error_cases ["mkt"] []).2.1 (by decide) rfl,
   (validator_error_cases ["mkt", "smb"]
      ([⟨"AAPL", 1⟩, ⟨"MSFT", 2⟩] : List PortfolioHolding)).2.2.2.2.1
      (by decide) (by decide) (by decide) (by decide)⟩

/-- The row count of the boundary test panel. -/
theorem cex2_length : cex2Panel.rows.length = 20 := by decide

/-- Missing fraction of column X of the test panel: 3 of 20 dates. -/
theorem cex2_nullFrac0 : nullFrac cex2Panel 0 = 3 / 20 := by
  have hc : cex2Panel.rows.countP (fun r => (r.2.getD 0 none).isNone) = 3 := by decide
  simp only [nullFrac, hc, cex2_length]
  norm_num

/-- Missing fraction of column Y of the test panel: 1 of 20 dates. -/
theorem cex2_nullFrac1 : nullFrac cex2Panel 1 = 1 / 20 := by
  have hc : cex2Panel.rows.countP (fun r => (r.2.getD 1 none).isNone) = 1 := by decide
  simp only [nullFrac, hc, cex2_length]
  norm_num

/-- Missing fraction of column Z of the test panel: 2 of 20 dates,
exactly the threshold 1/10. -/
theorem cex2_nullFrac2 : nullFrac cex2Panel 2 = 1 / 10 := by
  have hc : cex2Panel.rows.countP (fun r => (r.2.getD 2 none).isNone) = 2 := by decide
  simp only [nullFrac, hc, cex2_length]
  norm_num

/-- With threshold 1/10 only column index 1 (Y) survives the
null-threshold filter on the test panel. -/
theorem cex2_kept : keptIndices cex2Panel (1 / 10) = [1] := by
  have h0 : colKept cex2Panel (1 / 10) 0 = false := by
    show (decide (0 < cex2Panel.rows.length) &&
      decide (nullFrac cex2Panel 0 < 1 / 10)) = false
    rw [cex2_nullFrac0, cex2_length]
    norm_num
  have h1 : colKept cex2Panel (1 / 10) 1 = true := by
    show (decide (0 < cex2Panel.rows.length) &&
      decide (nullFrac cex2Panel 1 < 1 / 10)) = true
    rw [cex2_nullFrac1, cex2_length]
    norm_num
  have h2 : colKept cex2Panel (1 / 10) 2 = false := by
    show (decide (0 < cex2Panel.rows.length) &&
      decide (nullFrac cex2Panel 2 < 1 / 10)) = false
    rw [cex2_nullFrac2, cex2_length]
    norm_num
  show (List.range cex2Panel.cols.length).filter (colKept cex2Panel (1 / 10)) = [1]
  rw [show cex2Panel.cols.length = 3 from rfl, show List.range 3 = [0, 1, 2] from by decide]
  simp only [List.filter, h0, h1, h2]

/-- The cleaned test panel retains exactly column Y. -/
theorem cex2_cols : (cleanPanel cex2Panel (1 / 10)).cols = ["Y"] := by
  show ((keptIndices cex2Panel (1 / 10)).map (fun j => cex2Panel.cols.getD j "")) = ["Y"]
  rw [cex2_kept]
  decide

/-- C2 counterexample: with threshold 1/10, a column whose missing
fraction is exactly 1/10 — which does not exceed the threshold — is
nevertheless dropped by the cleaning stage (the code keeps a column
only when its missing fraction is strictly below the threshold). -/
theorem cleaning_threshold_boundary_cex :
    nullFrac cex2Panel 2 = 1 / 10 ∧ ¬ (nullFrac cex2Panel 2 > 1 / 10) ∧
    "Z" ∉ (cleanPanel cex2Panel (1 / 10)).cols := by
  refine ⟨cex2_nullFrac2, ?_, ?_⟩
  · rw [cex2_nullFrac2]
    exact lt_irrefl _
  · rw [cex2_cols]
    decide

/-- C2 (amended): the cleaning stage keeps a column index exactly
when the panel is non-empty and the column's missing fraction is
strictly below the threshold (so it drops columns whose fraction is
greater than or equal to the threshold); in particular, with
threshold 1/10 on `cex2Panel`, X (15% missing) and Z (10% missing)
are dropped while Y (5% missing) is retained. -/
theorem cleaning_keeps_iff :
    (∀ (p : Panel) (t : ℚ) (j : Nat),
        j ∈ keptIndices p t ↔ j < p.cols.length ∧ 0 < p.rows.length ∧ nullFrac p j < t) ∧
    (cleanPanel cex2Panel (1 / 10)).cols = ["Y"] := by
  constructor
  · intro p t j
    simp [keptIndices, colKept, List.mem_filter, List.mem_range, Bool.and_eq_true,
      decide_eq_true_iff, and_assoc]
  · exact cex2_cols

/-- C3: the panel returned by either `get_returns` implementation is
fully dense — after the column drop and the row drop, every retained
cell of every retained row holds a value. -/
theorem get_returns_output_dense :
    (∀ (store : List DbRow) (tickers : List String) (d1 d2 : Nat) (t : ℚ),
        ((DatabaseMDP.get_returns store tickers d1 d2 t).rows.all
          (fun r => r.2.all (fun v => v.isSome))) = true) ∧
    (∀ (prices : Panel) (t : ℚ),
        ((YahooFinanceMDP.get_returns prices t).rows.all
          (fun r => r.2.all (fun v => v.isSome))) = true) :=
  ⟨fun _ _ _ _ t => cleanPanel_dense _ t,
   fun _ t => cleanPanel_dense _ t⟩

/-- `uniqueFirst` leaves a duplicate-free list unchanged. -/
theorem uniqueFirst_eq_self {α : Type} [DecidableEq α] {l : List α} (h : l.Nodup) :
    uniqueFirst l = l := by
  induction l with
  | nil => rfl
  | cons d ds ih =>
    rw [List.nodup_cons] at h
    show d :: (uniqueFirst ds).filter (fun x => decide (x ≠ d)) = d :: ds
    rw [ih h.2]
    congr 1
    apply List.filter_eq_self.mpr
    intro x hx
    simp only [decide_eq_true_eq]
    intro he
    exact h.1 (he ▸ hx)

/-- `uniqueFirst` preserves membership. -/
theorem mem_uniqueFirst {α : Type} [DecidableEq α] {a : α} {l : List α} :
    a ∈ uniqueFirst l ↔ a ∈ l := by
  induction l with
  | nil => exact Iff.rfl
  | cons d ds ih =>
    show a ∈ d :: (uniqueFirst ds).filter (fun x => decide (x ≠ d)) ↔ a ∈ d :: ds
    by_cases had : a = d
    · subst had
      simp
    · simp [List.mem_filter, ih, had]

/-- On a panel with duplicate-free dates, the row filter for a
present date yields exactly the one matching row. -/
theorem filter_key_single {rows : List (Nat × List (Option ℚ))} {d : Nat}
    (hnd : (rows.map Prod.fst).Nodup) (hd : d ∈ rows.map Prod.fst) :
    ∃ v, rows.filter (fun r => decide (r.1 = d)) = [(d, v)] := by
  induction rows with
  | nil => simp at hd
  | cons r0 tl ih =>
    obtain ⟨k, v⟩ := r0
    rw [List.map_cons, List.nodup_cons] at hnd
    obtain ⟨h0, htl⟩ := hnd
    by_cases hkd : k = d
    · subst hkd
      refine ⟨v, ?_⟩
      rw [List.filter_cons_of_pos (by simp)]
      have hf : tl.filter (fun r => decide (r.1 = k)) = [] := by
        apply List.filter_eq_nil_iff.mpr
        intro r hr
        simp only [decide_eq_true_eq]
        intro he
        exact h0 (List.mem_map.mpr ⟨r, hr, he⟩)
      rw [hf]
    · have hd2 : d ∈ tl.map Prod.fst := by
        rcases List.mem_cons.mp hd with h | h
        · exact absurd h.symm hkd
        · exact h
      rw [List.filter_cons_of_neg (by simpa using hkd)]
      exact ih htl hd2

/-- `df.loc[ds]` on a duplicate-free panel reproduces exactly the
requested dates, in order, one row per date. -/
theorem locRows_of_nodup {rows : List (Nat × List (Option ℚ))}
    (hnd : (rows.map Prod.fst).Nodup) (ds : List Nat)
    (hmem : ∀ d ∈ ds, d ∈ rows.map Prod.fst) :
    (locRows rows ds).map Prod.fst = ds ∧ (locRows rows ds).length = ds.length := by
  induction ds with
  | nil => exact ⟨rfl, rfl⟩
  | cons d ds ih =>
    obtain ⟨v, hv⟩ := filter_key_single hnd (hmem d (by simp))
    have ihh := ih (fun x hx => hmem x (by simp [hx]))
    constructor
    · show (rows.filter (fun r => decide (r.1 = d)) ++ locRows rows ds).map Prod.fst = d :: ds
      rw [List.map_append, hv, ihh.1]
      rfl
    · show (rows.filter (fun r => decide (r.1 = d)) ++ locRows rows ds).length = (d :: ds).length
      rw [List.length_append, hv, ihh.2]
      simp [Nat.add_comm]

/-- Row lookup skips a leading row whose date is requested by none
of the dates. -/
theorem locRows_skip {tl : List (Nat × List (Option ℚ))} {r0 : Nat × List (Option ℚ)}
    (ds : List Nat) (h : ∀ d ∈ ds, d ≠ r0.1) :
    locRows (r0 :: tl) ds = locRows tl ds := by
  induction ds with
  | nil => rfl
  | cons d ds ih =>
    show (r0 :: tl).filter (fun r => decide (r.1 = d)) ++ locRows (r0 :: tl) ds =
      tl.filter (fun r => decide (r.1 = d)) ++ locRows tl ds
    rw [List.filter_cons_of_neg (by simpa using fun he => (h d (by simp)) he.symm),
      ih (fun x hx => h x (by simp [hx]))]

/-- `df.loc[df.index]` is the identity on a duplicate-free panel. -/
theorem locRows_self {rows : List (Nat × List (Option ℚ))}
    (hnd : (rows.map Prod.fst).Nodup) :
    locRows rows (rows.map Prod.fst) = rows := by
  induction rows with
  | nil => rfl
  | cons r0 tl ih =>
    rw [List.map_cons, List.nodup_cons] at hnd
    obtain ⟨h0, htl⟩ := hnd
    show (r0 :: tl).filter (fun r => decide (r.1 = r0.1)) ++
      locRows (r0 :: tl) (tl.map Prod.fst) = r0 :: tl
    have hf : tl.filter (fun r => decide (r.1 = r0.1)) = [] := by
      apply List.filter_eq_nil_iff.mpr
      intro r hr
      simp only [decide_eq_true_eq]
      intro he
      apply h0
      rw [← he]
      exact List.mem_map_of_mem Prod.fst hr
    rw [List.filter_cons_of_pos (by simp), hf,
      locRows_skip _ (fun d hd he => h0 (he ▸ hd)), ih htl]
    rfl

/-- First alignment test panel: dates [2, 1] (descending). -/
def cexA : Panel := ⟨["F"], [(2, [some 1]), (1, [some 2])]⟩

/-- Second alignment test panel: dates [1, 2] (ascending). -/
def cexB : Panel := ⟨["A"], [(1, [some 3]), (2, [some 4])]⟩

/-- Alignment test panel with a duplicated date. -/
def cexC : Panel := ⟨["F"], [(1, [some 1]), (1, [some 2]), (2, [some 3])]⟩

/-- Duplicate-free peer of `cexC`. -/
def cexD : Panel := ⟨["A"], [(1, [some 5]), (2, [some 6])]⟩

/-- Duplicate-free panels for alignment witnesses, dates [1, 2]. -/
def wexA : Panel := ⟨["F"], [(1, [some 1]), (2, [some 2])]⟩

/-- Duplicate-free peer of `wexA`, dates [2, 3]. -/
def wexB : Panel := ⟨["A"], [(2, [some 3]), (3, [some 4])]⟩

/-- C4 counterexample: `align_data` does not sort the common dates
ascending — with first-panel dates [2, 1] and second-panel dates
[1, 2] both outputs carry the index [2, 1], and swapping the inputs
yields [1, 2], so the result is not order-independent either; and
with a duplicated date in the first panel the two outputs have
different row counts (3 versus 2). -/
theorem align_sorted_cex :
    (align_data cexA cexB).1.rows.map Prod.fst = [2, 1] ∧
    (align_data cexA cexB).2.rows.map Prod.fst = [2, 1] ∧
    ([2, 1] : List Nat) ≠ [1, 2] ∧
    (align_data cexB cexA).1.rows.map Prod.fst = [1, 2] ∧
    (align_data cexC cexD).1.rows.length = 3 ∧
    (align_data cexC cexD).2.rows.length = 2 :=
  ⟨rfl, rfl, by decide, rfl, rfl, rfl⟩

/-- C4 (amended): for panels whose date indices are duplicate-free,
`align_data` returns two panels with the identical date index — the
first panel's dates restricted to those also present in the second
panel, in first-panel order (a set intersection, but neither sorted
ascending nor order-independent) — with identical row counts and no
synthesized dates. -/
theorem align_data_common_index (a b : Panel)
    (ha : (a.rows.map Prod.fst).Nodup) (hb : (b.rows.map Prod.fst).Nodup) :
    (align_data a b).1.rows.map Prod.fst =
      (a.rows.map Prod.fst).filter (fun d => decide (d ∈ b.rows.map Prod.fst)) ∧
    (align_data a b).2.rows.map Prod.fst =
      (a.rows.map Prod.fst).filter (fun d => decide (d ∈ b.rows.map Prod.fst)) ∧
    (align_data a b).1.rows.length = (align_data a b).2.rows.length := by
  have hcd : commonDates (a.rows.map Prod.fst) (b.rows.map Prod.fst) =
      (a.rows.map Prod.fst).filter (fun d => decide (d ∈ b.rows.map Prod.fst)) := by
    unfold commonDates
    rw [uniqueFirst_eq_self ha]
  have hsubA : ∀ d ∈ commonDates (a.rows.map Prod.fst) (b.rows.map Prod.fst),
      d ∈ a.rows.map Prod.fst := by
    intro d hd
    rw [hcd] at hd
    exact (List.mem_filter.mp hd).1
  have hsubB : ∀ d ∈ commonDates (a.rows.map Prod.fst) (b.rows.map Prod.fst),
      d ∈ b.rows.map Prod.fst := by
    intro d hd
    rw [hcd] at hd
    exact of_decide_eq_true (List.mem_filter.mp hd).2
  have hA := locRows_of_nodup ha _ hsubA
  have hB := locRows_of_nodup hb _ hsubB
  refine ⟨?_, ?_, ?_⟩
  · rw [show (align_data a b).1.rows =
      locRows a.rows (commonDates (a.rows.map Prod.fst) (b.rows.map Prod.fst)) from rfl,
      hA.1, hcd]
  · rw [show (align_data a b).2.rows =
      locRows b.rows (commonDates (a.rows.map Prod.fst) (b.rows.map Prod.fst)) from rfl,
      hB.1, hcd]
  · rw [show (align_data a b).1.rows =
      locRows a.rows (commonDates (a.rows.map Prod.fst) (b.rows.map Prod.fst)) from rfl,
      show (align_data a b).2.rows =
      locRows b.rows (commonDates (a.rows.map Prod.fst) (b.rows.map Prod.fst)) from rfl,
      hA.2, hB.2]

/-- C4 witness: the amended alignment property at two concrete
duplicate-free panels sharing date 2. -/
theorem align_data_common_index_witness :
    (align_data wexA wexB).1.rows.map Prod.fst =
      (wexA.rows.map Prod.fst).filter (fun d => decide (d ∈ wexB.rows.map Prod.fst)) ∧
    (align_data wexA wexB).2.rows.map Prod.fst =
      (wexA.rows.map Prod.fst).filter (fun d => decide (d ∈ wexB.rows.map Prod.fst)) ∧
    (align_data wexA wexB).1.rows.length = (align_data wexA wexB).2.rows.length :=
  align_data_common_index wexA wexB (by decide) (by decide)

/-- Alignment test panel whose date 1 occurs twice,
non-adjacently. -/
def dupPanel : Panel := ⟨["F"], [(1, [some 10]), (2, [some 20]), (1, [some 30])]⟩

/-- C9 counterexample: aligning a panel with itself (identical date
indices) does not return it unchanged when a date is duplicated —
the duplicated date's rows are regrouped, reordering the rows. -/
theorem align_identity_dup_cex :
    (align_data dupPanel dupPanel).1.rows.map Prod.fst = [1, 1, 2] ∧
    dupPanel.rows.map Prod.fst = [1, 2, 1] ∧
    (align_data dupPanel dupPanel).1 ≠ dupPanel := by
  refine ⟨rfl, rfl, ?_⟩
  intro h
  exact absurd (congrArg (fun q : Panel => q.rows.map Prod.fst) h) (by decide)

/-- C9 (amended): aligning two panels whose date indices are
identical and duplicate-free returns both panels unchanged — same
values, same order. -/
theorem align_data_identity (a b : Panel)
    (hab : a.rows.map Prod.fst = b.rows.map Prod.fst)
    (hnd : (a.rows.map Prod.fst).Nodup) :
    align_data a b = (a, b) := by
  have hcommon : commonDates (a.rows.map Prod.fst) (b.rows.map Prod.fst) =
      a.rows.map Prod.fst := by
    unfold commonDates
    rw [uniqueFirst_eq_self hnd]
    apply List.filter_eq_self.mpr
    intro x hx
    rw [← hab]
    exact decide_eq_true hx
  have hndb : (b.rows.map Prod.fst).Nodup := hab ▸ hnd
  show (⟨a.cols, locRows a.rows (commonDates (a.rows.map Prod.fst) (b.rows.map Prod.fst))⟩,
    (⟨b.cols, locRows b.rows (commonDates (a.rows.map Prod.fst) (b.rows.map Prod.fst))⟩ : Panel)) =
    (a, b)
  rw [hcommon]
  rw [show locRows a.rows (a.rows.map Prod.fst) = a.rows from locRows_self hnd]
  rw [hab]
  rw [show locRows b.rows (b.rows.map Prod.fst) = b.rows from locRows_self hndb]

/-- C9 witness: aligning two date-identical duplicate-free panels
returns them unchanged. -/
theorem align_data_identity_witness :
    align_data wexA (Panel.mk ["A"] [(1, [some 7]), (2, [some 8])]) =
      (wexA, Panel.mk ["A"] [(1, [some 7]), (2, [some 8])]) :=
  align_data_identity wexA (Panel.mk ["A"] [(1, [some 7]), (2, [some 8])]) rfl (by decide)

/-- Test factor panel with dates [1, 2]. -/
def p5F : Panel := ⟨["F1"], [(1, [some 1]), (2, [some 2])]⟩

/-- Test asset panel with dates [3, 4], disjoint from `p5F`. -/
def p5A : Panel := ⟨["AAPL"], [(3, [some 3]), (4, [some 4])]⟩

/-- Test asset panel with dates [1, 2], overlapping `p5F`. -/
def p5C : Panel := ⟨["AAPL"], [(1, [some 1]), (2, [some 2])]⟩

/-- Relational-store oracle returning the factor test panel. -/
def fetchF : List String → Except String Panel := fun _ => .ok p5F

/-- Market-data oracle returning the disjoint-dates asset panel. -/
def fetchA : List String → Except String Panel := fun _ => .ok p5A

/-- Market-data oracle returning the overlapping-dates asset
panel. -/
def fetchC : List String → Except String Panel := fun _ => .ok p5C

/-- An estimator oracle that always raises, as `LinearFactorModel`
does both on empty input and on a singular (collinear) input. -/
def fitFail : Panel → Panel → Except String FitResult := fun _ _ => .error "matrix is singular"

/-- A concrete holding line. -/
def hold1 : PortfolioHolding := ⟨"AAPL", 1⟩

/-- C6: the validator runs before any data fetch — whenever
validation fails, the request terminates with that validation error
and the fetch-effect trace is empty (no query against the relational
store, no call to the market-data feed). -/
theorem validation_precedes_fetch (factors : List String) (holdings : List PortfolioHolding)
    (dbFetch yfFetch : List String → Except String Panel)
    (fitFn : Panel → Panel → Except String FitResult) (now : Nat) (d : String)
    (hv : validate_factor_model factors (holdings.map (fun h => h.yf_ticker)) = .error d) :
    analyze_factor_model factors holdings dbFetch yfFetch fitFn now =
      (.error (.validation d), []) := by
  simp only [analyze_factor_model, hv]

/-- C6 witness: an empty factor list aborts the analysis before
either fetch. -/
theorem validation_precedes_fetch_witness :
    analyze_factor_model [] [hold1] fetchF fetchA fitFail 0 =
      (.error (.validation "No factors selected"), []) :=
  validation_precedes_fetch [] [hold1] fetchF fetchA fitFail 0 "No factors selected" rfl

/-- C5 counterexample: with factor dates [1, 2] and asset dates
[3, 4] the date intersection is empty and `align_data` returns two
zero-row panels, but the request then fails with exactly the same
generic fit error — `.fitError`, HTTP 500 "Error fitting factor
model" — as a genuine numerical failure on overlapping data
(`fetchC`), so no data-unavailable error distinguishable from a
fit error is ever raised. -/
theorem empty_intersection_error_cex :
    (align_data p5F p5A).1.rows = [] ∧ (align_data p5F p5A).2.rows = [] ∧
    analyze_factor_model ["F1"] [hold1] fetchF fetchA fitFail 0 =
      (.error (.fitError "matrix is singular"), [.db, .yahoo]) ∧
    analyze_factor_model ["F1"] [hold1] fetchF fetchC fitFail 0 =
      (.error (.fitError "matrix is singular"), [.db, .yahoo]) ∧
    (analyze_factor_model ["F1"] [hold1] fetchF fetchA fitFail 0).1 =
      (analyze_factor_model ["F1"] [hold1] fetchF fetchC fitFail 0).1 :=
  ⟨rfl, rfl, rfl, rfl, rfl⟩

/-- C5 (amended): when both fetches succeed and the date
intersection is empty, align returns two empty panels and the
request's outcome is decided by the estimator on the zero-row
input: if the estimator raises, the request fails with the same
generic fit error used for numerical failures; if the estimator
accepts, the request proceeds with the zero-row fit.  No distinct
data-unavailable error exists in the pipeline. -/
theorem empty_intersection_behavior (factors : List String) (holdings : List PortfolioHolding)
    (dbFetch yfFetch : List String → Except String Panel)
    (fitFn : Panel → Panel → Except String FitResult) (now : Nat) (fp pp : Panel)
    (hv : validate_factor_model factors (holdings.map (fun h => h.yf_ticker)) = .ok true)
    (hdb : dbFetch factors = .ok fp)
    (hyf : yfFetch (holdings.map (fun h => h.yf_ticker)) = .ok pp)
    (hempty : commonDates (fp.rows.map Prod.fst) (pp.rows.map Prod.fst) = []) :
    (align_data fp pp).1.rows = [] ∧ (align_data fp pp).2.rows = [] ∧
    (∀ m, fitFn (align_data fp pp).2 (align_data fp pp).1 = .error m →
      analyze_factor_model factors holdings dbFetch yfFetch fitFn now =
        (.error (.fitError m), [.db, .yahoo])) ∧
    (∀ res, fitFn (align_data fp pp).2 (align_data fp pp).1 = .ok res →
      analyze_factor_model factors holdings dbFetch yfFetch fitFn now =
        (.ok (build_response res (align_data fp pp).1 now), [.db, .yahoo])) := by
  refine ⟨?_, ?_, ?_, ?_⟩
  · show locRows fp.rows (commonDates (fp.rows.map Prod.fst) (pp.rows.map Prod.fst)) = []
    rw [hempty]
    rfl
  · show locRows pp.rows (commonDates (fp.rows.map Prod.fst) (pp.rows.map Prod.fst)) = []
    rw [hempty]
    rfl
  · intro m hm
    simp only [analyze_factor_model, hv, hdb, hyf, hm]
  · intro res hres
    simp only [analyze_factor_model, hv, hdb, hyf, hres]

/-- C5 witness: the amended behavior at the concrete disjoint-dates
inputs with a raising estimator. -/
theorem empty_intersection_behavior_witness :
    (align_data p5F p5A).1.rows = [] ∧
    analyze_factor_model ["F1"] [hold1] fetchF fetchA fitFail 0 =
      (.error (.fitError "matrix is singular"), [.db, .yahoo]) :=
  ⟨(empty_intersection_behavior ["F1"] [hold1] fetchF fetchA fitFail 0 p5F p5A
      rfl rfl rfl rfl).1,
   (empty_intersection_behavior ["F1"] [hold1] fetchF fetchA fitFail 0 p5F p5A
      rfl rfl rfl rfl).2.2.1 "matrix is singular" rfl⟩

/-- Concrete fit result with a per-period risk premium of 1/1000. -/
def res7 : FitResult :=
  ⟨0, 0, [("AAPL", [("F1", 1)])], [("F1", [("F1", 1)])], [("F1", 1 / 1000)]⟩

/-- C7 counterexample: the packaged risk premium equals the
estimator's raw per-period estimate 1/1000 and differs from its
trading-day (252×) and calendar-day (365×) annualized means, so the
reported value is not an annualized mean under either convention. -/
theorem risk_premia_not_annualized_cex :
    (build_response res7 p5F 0).risk_premia = [("F1", (1 : ℚ) / 1000)] ∧
    (1 : ℚ) / 1000 ≠ 252 * ((1 : ℚ) / 1000) ∧
    (1 : ℚ) / 1000 ≠ 365 * ((1 : ℚ) / 1000) := by
  refine ⟨rfl, by norm_num, by norm_num⟩

/-- C7 (amended): the risk premia in the packaged analysis result
are the estimator's per-period risk-premium estimates passed through
unchanged — no annualization scaling is applied anywhere in the
pipeline (and any fixed scaling other than 1 would change every
nonzero premium). -/
theorem risk_premia_passthrough :
    (∀ (res : FitResult) (factor_df : Panel) (now : Nat),
      (build_response res factor_df now).risk_premia = res.risk_premia) ∧
    (∀ c x : ℚ, c ≠ 1 → x ≠ 0 → c * x ≠ x) := by
  constructor
  · intro res fdf now
    rfl
  · intro c x hc hx h
    exact hc (mul_right_cancel₀ hx (h.trans (one_mul x).symm))

/-- C7 witness: pass-through at a concrete fit result, and the
trading-day scaling 252 changes the premium 1/1000. -/
theorem risk_premia_passthrough_witness :
    (build_response res7 p5F 0).risk_premia = res7.risk_premia ∧
    (252 : ℚ) * (1 / 1000) ≠ 1 / 1000 :=
  ⟨risk_premia_passthrough.1 res7 p5F 0,
   risk_premia_passthrough.2 252 (1 / 1000) (by norm_num) (by norm_num)⟩

/-- Inserting into the sort preserves membership. -/
theorem mem_insertSorted {α : Type} (le : α → α → Bool) (x a : α) (l : List α) :
    a ∈ insertSorted le x l ↔ a = x ∨ a ∈ l := by
  induction l with
  | nil => simp [insertSorted]
  | cons y ys ih =>
    show a ∈ (if le x y then x :: y :: ys else y :: insertSorted le x ys) ↔ _
    by_cases h : le x y
    · rw [if_pos h]
      simp
    · rw [if_neg h]
      simp only [List.mem_cons, ih]
      tauto

/-- Sorting preserves membership. -/
theorem mem_sortBy {α : Type} (le : α → α → Bool) (a : α) (l : List α) :
    a ∈ sortBy le l ↔ a ∈ l := by
  induction l with
  | nil => exact Iff.rfl
  | cons y ys ih =>
    show a ∈ insertSorted le y (sortBy le ys) ↔ _
    rw [mem_insertSorted]
    simp [ih]

/-- The pivoted panel's columns are exactly the identifiers
occurring among the pivoted rows. -/
theorem mem_pivotRows_cols (rows : List DbRow) (c : String) :
    c ∈ (pivotRows rows).cols ↔ c ∈ rows.map (fun r => r.factor_id) := by
  show c ∈ sortBy (fun a b => !(strLtB b a))
    (uniqueFirst (rows.map (fun r => r.factor_id))) ↔ _
  rw [mem_sortBy, mem_uniqueFirst]

/-- A fully dense two-date, two-identifier store. -/
def demoStore : List DbRow :=
  [⟨1, "A", 1⟩, ⟨1, "B", 2⟩, ⟨2, "A", 3⟩, ⟨2, "B", 4⟩]

/-- The pivot of the demo store over the range [0, 10], written
out. -/
def demoPivot : Panel := ⟨["A", "B"], [(1, [some 1, some 2]), (2, [some 3, some 4])]⟩

/-- Pivoting the demo store yields the explicit panel. -/
theorem demoStore_pivot : pivotRows (selectRows demoStore [] 0 10) = demoPivot := by decide

/-- Column A of the pivoted demo store has no missing values. -/
theorem demoPivot_nullFrac0 : nullFrac demoPivot 0 = 0 := by
  have hc : demoPivot.rows.countP (fun r => (r.2.getD 0 none).isNone) = 0 := by decide
  simp only [nullFrac, hc, show demoPivot.rows.length = 2 from rfl]
  norm_num

/-- Column B of the pivoted demo store has no missing values. -/
theorem demoPivot_nullFrac1 : nullFrac demoPivot 1 = 0 := by
  have hc : demoPivot.rows.countP (fun r => (r.2.getD 1 none).isNone) = 0 := by decide
  simp only [nullFrac, hc, show demoPivot.rows.length = 2 from rfl]
  norm_num

/-- Both columns of the pivoted demo store survive the threshold
filter at 1/10. -/
theorem demoPivot_kept : keptIndices demoPivot (1 / 10) = [0, 1] := by
  have hk0 : colKept demoPivot (1 / 10) 0 = true := by
    show (decide (0 < demoPivot.rows.length) &&
      decide (nullFrac demoPivot 0 < 1 / 10)) = true
    rw [demoPivot_nullFrac0, show demoPivot.rows.length = 2 from rfl]
    norm_num
  have hk1 : colKept demoPivot (1 / 10) 1 = true := by
    show (decide (0 < demoPivot.rows.length) &&
      decide (nullFrac demoPivot 1 < 1 / 10)) = true
    rw [demoPivot_nullFrac1, show demoPivot.rows.length = 2 from rfl]
    norm_num
  show (List.range demoPivot.cols.length).filter (colKept demoPivot (1 / 10)) = [0, 1]
  rw [show demoPivot.cols.length = 2 from rfl, show List.range 2 = [0, 1] from by decide]
  simp only [List.filter, hk0, hk1]

/-- The relational provider at an empty ticker list returns the full
cleaned demo panel: both identifiers of the store. -/
theorem demoStore_cols :
    (DatabaseMDP.get_returns demoStore [] 0 10 (1 / 10)).cols = ["A", "B"] := by
  show (cleanPanel (pivotRows (selectRows demoStore [] 0 10)) (1 / 10)).cols = ["A", "B"]
  rw [demoStore_pivot]
  show ((keptIndices demoPivot (1 / 10)).map (fun j => demoPivot.cols.getD j "")) = ["A", "B"]
  rw [demoPivot_kept]
  decide

/-- C10: with an empty identifier collection the relational-store
provider applies no identifier filter — it selects every store row
in the date range, so the pre-cleaning panel's columns are exactly
the identifiers present in the store for that range, and the result
is the cleaned panel over all of them; on a concrete non-empty
store the returned panel is non-empty. -/
theorem db_get_returns_no_ticker_filter :
    (∀ (store : List DbRow) (d1 d2 : Nat) (t : ℚ),
      selectRows store [] d1 d2 =
        store.filter (fun r => decide (d1 ≤ r.date) && decide (r.date ≤ d2)) ∧
      DatabaseMDP.get_returns store [] d1 d2 t =
        cleanPanel (pivotRows (store.filter
          (fun r => decide (d1 ≤ r.date) && decide (r.date ≤ d2)))) t ∧
      (∀ c, c ∈ (pivotRows (selectRows store [] d1 d2)).cols ↔
        ∃ r, r ∈ store ∧ d1 ≤ r.date ∧ r.date ≤ d2 ∧ r.factor_id = c)) ∧
    (DatabaseMDP.get_returns demoStore [] 0 10 (1 / 10)).cols = ["A", "B"] := by
  refine ⟨?_, demoStore_cols⟩
  intro store d1 d2 t
  refine ⟨rfl, rfl, ?_⟩
  intro c
  rw [mem_pivotRows_cols]
  show c ∈ (store.filter
    (fun r => decide (d1 ≤ r.date) && decide (r.date ≤ d2))).map (fun r => r.factor_id) ↔ _
  simp only [List.mem_map, List.mem_filter, Bool.and_eq_true, decide_eq_true_eq]
  constructor
  · rintro ⟨r, ⟨hr, hd1, hd2⟩, hc⟩
    exact ⟨r, hr, hd1, hd2, hc⟩
  · rintro ⟨r, hr, hd1, hd2, hc⟩
    exact ⟨r, ⟨hr, hd1, hd2⟩, hc⟩
